import Mathlib

/-!
Verification of the UDS data-frame cryptographic framing layer
(`src/core/hle/service/nwm/uds_data.cpp`).

Byte buffers are modelled as `List Nat` (each entry one byte).  The external
cryptographic primitives (AES block encryption, MD5, and the hardware key
store) are out of scope per the specification and enter as explicit function
parameters; the CCM authenticated-encryption mode (CryptoPP `CCM<AES, 8>`
with a 13-byte nonce, hence length-field width L = 2) is modelled explicitly
over an abstract block cipher `E`.  Struct layouts declared in headers that
are not part of the given source (`LLCHeader`, `SecureDataHeader`,
`DataFrameCryptoCTR`, `NetworkInfo`) are modelled from the specification and
say so in their doc comments.
-/

namespace NWM

/-- Serialization of a 16-bit big-endian integer field (`u16_be`) into two
bytes, as produced by `memcpy` of the packed swap type. -/
def be16 (v : Nat) : List Nat := [v / 256 % 256, v % 256]

/-- Modelled from the spec: the identity fields of `NetworkInfo` (declared in
a header outside the given source) that this core reads — host MAC (6 bytes),
wireless-community id (8 bytes), network instance id (1 byte) and network id
(4 bytes, the low/relevant portion). -/
structure NetworkInfo where
  host_mac_address : List Nat
  wlan_comm_id : List Nat
  id : Nat
  network_id : List Nat

/-- Source constant `UDSDataCryptoAESKeySlot`: the AES keyslot used to
generate the UDS data frame CCMP key. -/
def UDSDataCryptoAESKeySlot : Nat := 0x2D

/-- Modelled from the spec: the serialized bytes of the `DataFrameCryptoCTR`
structure (declared in a header outside the given source) filled in by
`GetDataCryptoCTR` — host MAC, wireless-community id, network instance id and
network id, concatenated in this exact order. -/
def dataFrameCryptoCTRBytes (network_info : NetworkInfo) : List Nat :=
  network_info.host_mac_address ++ network_info.wlan_comm_id ++
    [network_info.id % 256] ++ network_info.network_id

/-- Source `GetDataCryptoCTR`: the MD5 digest of the serialized
`DataFrameCryptoCTR` structure, used as the AES-CTR counter/IV for key
derivation.  `md5` is the external digest primitive. -/
def GetDataCryptoCTR (md5 : List Nat → List Nat) (network_info : NetworkInfo) : List Nat :=
  md5 (dataFrameCryptoCTRBytes network_info)

/-- Number of 16-byte cipher blocks needed to cover `len` bytes. -/
def numBlocks (len : Nat) : Nat := (len + 15) / 16

/-- Little-endian byte-list increment with carry (helper for the big-endian
counter increment of CTR mode). -/
def incLE : List Nat → List Nat
  | [] => []
  | b :: bs => if b % 256 = 255 then 0 :: incLE bs else (b + 1) % 256 :: bs

/-- Big-endian increment of a counter block, as CTR mode steps its counter. -/
def ctrIncrement (c : List Nat) : List Nat := (incLE c.reverse).reverse

/-- Keystream of AES-CTR mode (external primitive, CryptoPP
`CTR_Mode<AES>::Encryption`): successive encryptions of the incrementing
counter under the abstract block cipher `E`. -/
def ctrKeystream (E : List Nat → List Nat → List Nat) (key : List Nat) :
    List Nat → Nat → List Nat
  | _, 0 => []
  | ctr, n + 1 => E key ctr ++ ctrKeystream E key (ctrIncrement ctr) n

/-- AES-CTR encryption (external primitive): xor of the data with the
keystream generated from the initial counter `iv`. -/
def ctrModeEncrypt (E : List Nat → List Nat → List Nat) (key iv data : List Nat) : List Nat :=
  List.zipWith Nat.xor data (ctrKeystream E key iv (numBlocks data.length))

/-- Source `GenerateDataCCMPKey`: MD5-hash the passphrase, compute the CTR
from the network info, fetch the normal key of slot `UDSDataCryptoAESKeySlot`
from the external key store (`GetNormalKey`), and encrypt the passphrase hash
with AES-CTR under that key and counter. -/
def GenerateDataCCMPKey (md5 : List Nat → List Nat) (E : List Nat → List Nat → List Nat)
    (GetNormalKey : Nat → List Nat) (passphrase : List Nat)
    (network_info : NetworkInfo) : List Nat :=
  let passphrase_hash := md5 passphrase
  let counter := GetDataCryptoCTR md5 network_info
  let key := GetNormalKey UDSDataCryptoAESKeySlot
  ctrModeEncrypt E key counter passphrase_hash

/-- Written from the spec's words (§4.3, `derive_ccmp_key`) for comparison
with `GenerateDataCCMPKey`: AES-CTR encryption of MD5(passphrase) under the
master key of slot 0x2D, with IV/counter the MD5 of host MAC ++ wireless
community id ++ instance id ++ network id. -/
def deriveCCMPKeySpec (md5 : List Nat → List Nat) (E : List Nat → List Nat → List Nat)
    (GetNormalKey : Nat → List Nat) (passphrase : List Nat)
    (network_info : NetworkInfo) : List Nat :=
  ctrModeEncrypt E (GetNormalKey 0x2D)
    (md5 (network_info.host_mac_address ++ network_info.wlan_comm_id ++
      [network_info.id % 256] ++ network_info.network_id))
    (md5 passphrase)

/-- The AAD structure built by `GenerateCCMPAAD` (declared locally in the
source): frame control, receiver, transmitter and destination MAC addresses,
and sequence control. -/
structure CCMPAADStruct where
  FC : Nat
  receiver : List Nat
  transmitter : List Nat
  destination : List Nat
  SC : Nat

/-- Byte serialization of the AAD structure: the two 16-bit fields are
`u16_be`, the MAC addresses raw bytes. -/
def serializeCCMPAAD (a : CCMPAADStruct) : List Nat :=
  be16 a.FC ++ a.receiver ++ a.transmitter ++ a.destination ++ be16 a.SC

/-- Source constant `DefaultFrameControl`: DataFrame | Protected | ToDS. -/
def DefaultFrameControl : Nat := 0x0841

/-- Source `GenerateCCMPAAD`: fixed frame control, zero sequence control,
transmitter = sender, receiver = destination = receiver. -/
def GenerateCCMPAAD (sender receiver : List Nat) : List Nat :=
  serializeCCMPAAD
    { FC := DefaultFrameControl
      SC := 0
      transmitter := sender
      receiver := receiver
      destination := receiver }

/-- The packet number built inside `DecryptDataFrame`: four zero bytes, then
the sequence number's high and low bytes. -/
def decryptPacketNumber (sequence_number : Nat) : List Nat :=
  [0, 0, 0, 0, (sequence_number >>> 8) &&& 0xFF, sequence_number &&& 0xFF]

/-- The 13-byte CCM nonce built inside `DecryptDataFrame`: priority byte 0,
sender MAC (Address 2), packet number. -/
def decryptNonce (sender : List Nat) (sequence_number : Nat) : List Nat :=
  0 :: (sender ++ decryptPacketNumber sequence_number)

/-- The packet number built inside `EncryptDataFrame`: four zero bytes, then
the sequence number's high and low bytes. -/
def encryptPacketNumber (sequence_number : Nat) : List Nat :=
  [0, 0, 0, 0, (sequence_number >>> 8) &&& 0xFF, sequence_number &&& 0xFF]

/-- The 13-byte CCM nonce built inside `EncryptDataFrame`: priority byte 0,
sender MAC (Address 2), packet number. -/
def encryptNonce (sender : List Nat) (sequence_number : Nat) : List Nat :=
  0 :: (sender ++ encryptPacketNumber sequence_number)

/-- Maximum CCM message length for length-field width L = 2 (13-byte nonce),
as enforced by the external CCM primitive. -/
def ccmMaxMessageLength : Nat := 65535

/-- Zero-padding of a byte string to a multiple of the 16-byte block size. -/
def blockPad (bs : List Nat) : List Nat :=
  bs ++ List.replicate ((16 - bs.length % 16) % 16) 0

/-- Split a byte string into 16-byte chunks (last chunk possibly shorter). -/
def chunks16 (l : List Nat) : List (List Nat) :=
  if h : l = [] then [] else l.take 16 :: chunks16 (l.drop 16)
termination_by l.length
decreasing_by
  simp only [List.length_drop]
  have hl := List.length_pos.mpr h
  omega

/-- CBC-MAC chaining under the abstract block cipher `E`: starting from state
`X`, absorb each block by xor followed by block encryption. -/
def cbcMacRun (E : List Nat → List Nat → List Nat) (key : List Nat) :
    List Nat → List (List Nat) → List Nat
  | X, [] => X
  | X, B :: Bs => cbcMacRun E key (E key (List.zipWith Nat.xor X B)) Bs

/-- First authentication block B0 of CCM: flags (AAD present bit, tag length
8 encoded as 3, L - 1 = 1), the 13-byte nonce, and the 2-byte big-endian
message length. -/
def ccmB0 (nonce aad msg : List Nat) : List Nat :=
  ((if aad = [] then 0 else 0x40) + 0x18 + 0x01) :: (nonce ++ be16 msg.length)

/-- CCM authenticated data stream after B0: the AAD preceded by its 2-byte
length encoding and zero-padded to a block boundary, then the zero-padded
message. -/
def ccmAuthData (aad msg : List Nat) : List Nat :=
  (if aad = [] then [] else blockPad (be16 aad.length ++ aad)) ++ blockPad msg

/-- CCM counter block A_i: flags byte L - 1 = 1, the 13-byte nonce, and the
2-byte big-endian block index. -/
def ccmCtrBlock (nonce : List Nat) (i : Nat) : List Nat :=
  0x01 :: (nonce ++ be16 i)

/-- CCM keystream blocks A_i, A_{i+1}, ... encrypted under `E`. -/
def ccmKeystreamFrom (E : List Nat → List Nat → List Nat) (key nonce : List Nat) :
    Nat → Nat → List Nat
  | _, 0 => []
  | i, n + 1 => E key (ccmCtrBlock nonce i) ++ ccmKeystreamFrom E key nonce (i + 1) n

/-- CCM payload keystream: blocks A_1 .. A_n. -/
def ccmKeystream (E : List Nat → List Nat → List Nat) (key nonce : List Nat) (n : Nat) :
    List Nat :=
  ccmKeystreamFrom E key nonce 1 n

/-- CCM counter-mode transform of the payload (the same xor in both
directions). -/
def ccmCrypt (E : List Nat → List Nat → List Nat) (key nonce msg : List Nat) : List Nat :=
  List.zipWith Nat.xor msg (ccmKeystream E key nonce (numBlocks msg.length))

/-- CCM 8-byte authentication tag: the truncated CBC-MAC over B0 and the
authenticated data stream, encrypted with the first keystream block A_0. -/
def ccmTag (E : List Nat → List Nat → List Nat) (key nonce aad msg : List Nat) : List Nat :=
  List.zipWith Nat.xor
    ((cbcMacRun E key (E key (ccmB0 nonce aad msg)) (chunks16 (ccmAuthData aad msg))).take 8)
    ((E key (ccmCtrBlock nonce 0)).take 8)

/-- The external CCM encryption primitive (CryptoPP `CCM<AES, 8>::Encryption`
behind an `AuthenticatedEncryptionFilter`): rejects messages longer than the
L = 2 limit (the `SpecifyDataLengths` check, surfaced as a caught exception,
hence `none`); otherwise returns ciphertext followed by the 8-byte tag. -/
def ccmEncrypt (E : List Nat → List Nat → List Nat) (key nonce aad msg : List Nat) :
    Option (List Nat) :=
  if msg.length ≤ ccmMaxMessageLength then
    some (ccmCrypt E key nonce msg ++ ccmTag E key nonce aad msg)
  else none

/-- The external CCM decryption primitive (CryptoPP `CCM<AES, 8>::Decryption`
behind an `AuthenticatedDecryptionFilter` with MAC_AT_END and
THROW_EXCEPTION): recovers the payload by the counter-mode xor and releases
it only if the recomputed tag matches the received one; a mismatch throws,
hence `none`. -/
def ccmDecrypt (E : List Nat → List Nat → List Nat) (key nonce aad ct tag : List Nat) :
    Option (List Nat) :=
  let p := ccmCrypt E key nonce ct
  if ccmTag E key nonce aad p = tag then some p else none

/-- C++ `size_t` subtraction of 8 as performed on `encrypted_payload.size()`:
wraps modulo 2^64 when the input is shorter than 8 bytes. -/
def wrapSub8 (n : Nat) : Nat := (n + (2 ^ 64 - 8)) % 2 ^ 64

/-- The cryptographic core of source `DecryptDataFrame`: build AAD and nonce,
split the input into ciphertext (`size - 8` in `size_t` arithmetic) and
trailing 8-byte tag, and run CCM decryption.  `none` models the caught
CryptoPP exception (length rejected by `SpecifyDataLengths`, or tag
mismatch). -/
def decryptCCMResult (E : List Nat → List Nat → List Nat) (ccmp_key sender receiver : List Nat)
    (sequence_number : Nat) (encrypted_payload : List Nat) : Option (List Nat) :=
  let aad := GenerateCCMPAAD sender receiver
  let nonce := decryptNonce sender sequence_number
  let clen := wrapSub8 encrypted_payload.length
  if clen ≤ ccmMaxMessageLength then
    ccmDecrypt E ccmp_key nonce aad (encrypted_payload.take clen) (encrypted_payload.drop clen)
  else none

/-- Source `DecryptDataFrame`: returns the recovered payload, or the empty
vector when the CCM primitive failed (the catch block). -/
def DecryptDataFrame (E : List Nat → List Nat → List Nat) (ccmp_key sender receiver : List Nat)
    (sequence_number : Nat) (encrypted_payload : List Nat) : List Nat :=
  (decryptCCMResult E ccmp_key sender receiver sequence_number encrypted_payload).getD []

/-- The cryptographic core of source `EncryptDataFrame`: build AAD and nonce
and run CCM encryption over the payload. -/
def encryptCCMResult (E : List Nat → List Nat → List Nat) (ccmp_key sender receiver : List Nat)
    (sequence_number : Nat) (payload : List Nat) : Option (List Nat) :=
  ccmEncrypt E ccmp_key (encryptNonce sender sequence_number)
    (GenerateCCMPAAD sender receiver) payload

/-- Source `EncryptDataFrame`: returns ciphertext ++ tag, or the empty vector
when the CCM primitive failed (the catch block). -/
def EncryptDataFrame (E : List Nat → List Nat → List Nat) (ccmp_key sender receiver : List Nat)
    (sequence_number : Nat) (payload : List Nat) : List Nat :=
  (encryptCCMResult E ccmp_key sender receiver sequence_number payload).getD []

/-- Modelled from the spec: the link-encapsulation header (`LLCHeader`,
declared in a header outside the given source) as `encode_link_header` of
§4.1 describes it — a 2-byte big-endian protocol identifier. -/
def GenerateLLCHeader (protocol : Nat) : List Nat := be16 protocol

/-- Modelled from the spec: the `EtherType` constant identifying the "secure
data" sub-protocol (its numeric value is declared outside the given source;
the value used here is the reference protocol's). -/
def EtherTypeSecureData : Nat := 0x876D

/-- Modelled from the spec: the fixed size of the `SecureDataHeader`
structure (declared in a header outside the given source), the sum of the
field widths of §6: 2 + 2 + 1 + 1 + 2 + 2 + 2. -/
def secureDataHeaderSize : Nat := 12

/-- The fields of the secure-data transport header (structure declared in a
header outside the given source; field list modelled from the spec). -/
structure SecureDataHeader where
  protocol_size : Nat
  securedata_size : Nat
  is_management : Nat
  data_channel : Nat
  sequence_number : Nat
  dest_node_id : Nat
  src_node_id : Nat

/-- Field assignments of source `GenerateSecureDataHeader`; the stores into
the fixed-width fields truncate as the C++ types do (`data_size` arrives as a
`u16`). -/
def mkSecureDataHeader (data_size channel dest_node_id src_node_id sequence_number : Nat) :
    SecureDataHeader :=
  let ds := data_size % 65536
  { protocol_size := (ds + secureDataHeaderSize) % 65536
    securedata_size := (ds + secureDataHeaderSize - 4) % 65536
    is_management := 0
    data_channel := channel % 256
    sequence_number := sequence_number % 65536
    dest_node_id := dest_node_id % 65536
    src_node_id := src_node_id % 65536 }

/-- Byte serialization of the secure-data header in its fixed field
positions (multi-byte fields in the wire byte order of the modelled
struct). -/
def serializeSecureDataHeader (h : SecureDataHeader) : List Nat :=
  be16 h.protocol_size ++ be16 h.securedata_size ++
    [h.is_management % 256, h.data_channel % 256] ++
    be16 h.sequence_number ++ be16 h.dest_node_id ++ be16 h.src_node_id

/-- Source `GenerateSecureDataHeader`: fill the structure and serialize it. -/
def GenerateSecureDataHeader (data_size channel dest_node_id src_node_id sequence_number : Nat) :
    List Nat :=
  serializeSecureDataHeader
    (mkSecureDataHeader data_size channel dest_node_id src_node_id sequence_number)

/-- Source `GenerateDataPayload`: LLC header for the secure-data protocol,
then the secure-data header sized against the payload, then the payload. -/
def GenerateDataPayload (data : List Nat) (channel dest_node src_node sequence_number : Nat) :
    List Nat :=
  GenerateLLCHeader EtherTypeSecureData ++
    GenerateSecureDataHeader data.length channel dest_node src_node sequence_number ++ data

/-- A concrete 16-byte-block cipher stand-in used to instantiate the abstract
block-cipher parameter in witnesses. -/
def zeroCipher : List Nat → List Nat → List Nat := fun _ _ => List.replicate 16 0

/-- A concrete 16-byte key for witnesses. -/
def testKey : List Nat := List.replicate 16 0

/-- A concrete sender MAC address for witnesses. -/
def macA : List Nat := [0x00, 0x11, 0x22, 0x33, 0x44, 0x55]

/-- A concrete receiver MAC address for witnesses. -/
def macB : List Nat := [0x66, 0x77, 0x88, 0x99, 0xAA, 0xBB]

/-- A payload one byte longer than the CCM message-length limit. -/
def bigPayload : List Nat := List.replicate 65536 0

/-- A concrete `NetworkInfo` with the spec's field widths (6, 8, 1, 4). -/
def testNetworkInfo : NetworkInfo :=
  { host_mac_address := macA
    wlan_comm_id := [1, 2, 3, 4, 5, 6, 7, 8]
    id := 1
    network_id := [0xAA, 0xBB, 0xCC, 0xDD] }

theorem zipWith_xor_cancel (xs : List Nat) : ∀ ks : List Nat, xs.length ≤ ks.length →
    List.zipWith Nat.xor (List.zipWith Nat.xor xs ks) ks = xs := by
  induction xs with
  | nil => intro ks _; simp
  | cons a xs ih =>
    intro ks hk
    cases ks with
    | nil => simp at hk
    | cons k ks =>
      simp only [List.zipWith_cons_cons, List.length_cons, Nat.add_le_add_iff_right] at *
      exact congrArg₂ List.cons (Nat.xor_cancel_right k a) (ih ks hk)

theorem ccmKeystreamFrom_length (E : List Nat → List Nat → List Nat)
    (hE : ∀ k b, (E k b).length = 16) (key nonce : List Nat) :
    ∀ n i, (ccmKeystreamFrom E key nonce i n).length = 16 * n := by
  intro n
  induction n with
  | zero => intro i; simp [ccmKeystreamFrom]
  | succ n ih =>
    intro i
    simp only [ccmKeystreamFrom, List.length_append, hE, ih]
    ring

theorem ccmCrypt_length (E : List Nat → List Nat → List Nat)
    (hE : ∀ k b, (E k b).length = 16) (key nonce msg : List Nat) :
    (ccmCrypt E key nonce msg).length = msg.length := by
  simp only [ccmCrypt, List.length_zipWith, ccmKeystream,
    ccmKeystreamFrom_length E hE key nonce, numBlocks]
  omega

theorem ccmCrypt_involution (E : List Nat → List Nat → List Nat)
    (hE : ∀ k b, (E k b).length = 16) (key nonce msg : List Nat) :
    ccmCrypt E key nonce (ccmCrypt E key nonce msg) = msg := by
  have hlen := ccmCrypt_length E hE key nonce msg
  unfold ccmCrypt at hlen ⊢
  rw [hlen]
  exact zipWith_xor_cancel msg _ (by
    simp only [ccmKeystream, ccmKeystreamFrom_length E hE key nonce, numBlocks]
    omega)

theorem cbcMacRun_length (E : List Nat → List Nat → List Nat)
    (hE : ∀ k b, (E k b).length = 16) (key : List Nat) :
    ∀ Bs X, X.length = 16 → (cbcMacRun E key X Bs).length = 16 := by
  intro Bs
  induction Bs with
  | nil => intro X hX; simpa [cbcMacRun] using hX
  | cons B Bs ih => intro X _; simpa [cbcMacRun] using ih _ (hE key _)

theorem ccmTag_length (E : List Nat → List Nat → List Nat)
    (hE : ∀ k b, (E k b).length = 16) (key nonce aad msg : List Nat) :
    (ccmTag E key nonce aad msg).length = 8 := by
  simp [ccmTag, List.length_zipWith, List.length_take,
    cbcMacRun_length E hE key _ _ (hE key _), hE]

theorem wrapSub8_add_eight (n : Nat) (h : n < 2 ^ 64 - 8) : wrapSub8 (n + 8) = n := by
  have h64 : (2 : Nat) ^ 64 = 18446744073709551616 := by norm_num
  simp only [wrapSub8, h64] at *
  omega

theorem wrapSub8_short (n : Nat) (h : n < 8) : ccmMaxMessageLength < wrapSub8 n := by
  have h64 : (2 : Nat) ^ 64 = 18446744073709551616 := by norm_num
  simp only [wrapSub8, ccmMaxMessageLength, h64]
  omega

theorem encrypt_within_limit (E : List Nat → List Nat → List Nat)
    (key S R : List Nat) (N : Nat) (P : List Nat) (hP : P.length ≤ 65535) :
    EncryptDataFrame E key S R N P =
      ccmCrypt E key (encryptNonce S N) P ++
        ccmTag E key (encryptNonce S N) (GenerateCCMPAAD S R) P := by
  simp [EncryptDataFrame, encryptCCMResult, ccmEncrypt, ccmMaxMessageLength, hP]

theorem roundtrip_core (E : List Nat → List Nat → List Nat)
    (hE : ∀ k b, (E k b).length = 16) (key S R : List Nat) (N : Nat) (P : List Nat)
    (hP : P.length ≤ 65535) :
    decryptCCMResult E key S R N (EncryptDataFrame E key S R N P) = some P := by
  have hnn : decryptNonce S N = encryptNonce S N := rfl
  have hct : (ccmCrypt E key (encryptNonce S N) P).length = P.length :=
    ccmCrypt_length E hE key _ P
  have htag : (ccmTag E key (encryptNonce S N) (GenerateCCMPAAD S R) P).length = 8 :=
    ccmTag_length E hE key _ _ P
  rw [encrypt_within_limit E key S R N P hP]
  have hlen : (ccmCrypt E key (encryptNonce S N) P ++
      ccmTag E key (encryptNonce S N) (GenerateCCMPAAD S R) P).length = P.length + 8 := by
    rw [List.length_append, hct, htag]
  have hws : wrapSub8 (P.length + 8) = P.length := wrapSub8_add_eight P.length (by omega)
  have htake : (ccmCrypt E key (encryptNonce S N) P ++
      ccmTag E key (encryptNonce S N) (GenerateCCMPAAD S R) P).take P.length =
      ccmCrypt E key (encryptNonce S N) P := by
    rw [← hct]; exact List.take_left _ _
  have hdrop : (ccmCrypt E key (encryptNonce S N) P ++
      ccmTag E key (encryptNonce S N) (GenerateCCMPAAD S R) P).drop P.length =
      ccmTag E key (encryptNonce S N) (GenerateCCMPAAD S R) P := by
    rw [← hct]; exact List.drop_left _ _
  simp only [decryptCCMResult, hlen, hws, hnn, htake, hdrop]
  rw [if_pos (show P.length ≤ ccmMaxMessageLength from hP)]
  simp only [ccmDecrypt, ccmCrypt_involution E hE key _ P]
  simp

theorem decrypt_short_eq_empty (E : List Nat → List Nat → List Nat)
    (key S R : List Nat) (N : Nat) (input : List Nat) (h : input.length < 8) :
    DecryptDataFrame E key S R N input = [] := by
  have hw := wrapSub8_short input.length h
  have hnone : decryptCCMResult E key S R N input = none := by
    unfold decryptCCMResult
    rw [if_neg (by omega)]
  unfold DecryptDataFrame
  rw [hnone]
  rfl

/-- C1: the claim quantifies over all plaintexts, but for a plaintext longer
than the CCM length limit (65535 bytes with a 13-byte nonce) encryption fails
and returns the empty vector, whose decryption is again empty and hence not
the original plaintext. -/
theorem C1_roundtrip_fails_for_oversized_plaintext :
    DecryptDataFrame zeroCipher testKey macA macB 0
      (EncryptDataFrame zeroCipher testKey macA macB 0 bigPayload) ≠ bigPayload := by
  have hlen : bigPayload.length = 65536 := by
    rw [bigPayload, List.length_replicate]
  have hnone : encryptCCMResult zeroCipher testKey macA macB 0 bigPayload = none := by
    unfold encryptCCMResult ccmEncrypt
    rw [hlen, if_neg (by norm_num [ccmMaxMessageLength])]
  have henc : EncryptDataFrame zeroCipher testKey macA macB 0 bigPayload = [] := by
    unfold EncryptDataFrame
    rw [hnone]
    rfl
  rw [henc, decrypt_short_eq_empty zeroCipher testKey macA macB 0 [] (by simp)]
  intro hcontra
  have hl := congrArg List.length hcontra
  rw [hlen, List.length_nil] at hl
  exact absurd hl (by norm_num)

/-- C1 (amended): for every plaintext P of length at most 65535 bytes, every
key, sender MAC, receiver MAC and 16-bit sequence number, decrypting the
encryption with the same parameters returns P. -/
theorem C1_encrypt_decrypt_roundtrip (E : List Nat → List Nat → List Nat)
    (hE : ∀ k b, (E k b).length = 16) (K S R : List Nat) (N : Nat) (P : List Nat)
    (hK : K.length = 16) (hS : S.length = 6) (hR : R.length = 6) (hN : N < 65536)
    (hP : P.length ≤ 65535) :
    DecryptDataFrame E K S R N (EncryptDataFrame E K S R N P) = P := by
  unfold DecryptDataFrame
  rw [roundtrip_core E hE K S R N P hP]
  rfl

/-- C1 witness: the round-trip at a concrete cipher, key, address pair,
sequence number and plaintext. -/
theorem C1_encrypt_decrypt_roundtrip_witness :
    DecryptDataFrame zeroCipher testKey macA macB 5
      (EncryptDataFrame zeroCipher testKey macA macB 5 [1, 2, 3]) = [1, 2, 3] :=
  C1_encrypt_decrypt_roundtrip zeroCipher (fun _ _ => by simp [zeroCipher]) testKey macA macB 5
    [1, 2, 3] (by decide) (by decide) (by decide) (by decide) (by decide)

/-- C3: the claim describes the counter input as 18 bytes, but the field
widths it lists (6 + 8 + 1 + 4) serialize to 19 bytes, exhibited at a
concrete `NetworkInfo`. -/
theorem C3_counter_input_not_18_bytes :
    (dataFrameCryptoCTRBytes testNetworkInfo).length ≠ 18 := by decide

/-- C3 (amended): for every passphrase and `NetworkInfo` (with the spec's
field widths 6, 8, 1, 4), `GenerateDataCCMPKey` is the AES-CTR encryption of
MD5(passphrase) under the master key of slot 0x2D with IV the MD5 of the
19-byte counter input host MAC ++ wireless-community id ++ instance id ++
network id, in this exact order. -/
theorem C3_ccmp_key_matches_spec (md5 : List Nat → List Nat)
    (E : List Nat → List Nat → List Nat) (GetNormalKey : Nat → List Nat)
    (passphrase : List Nat) (network_info : NetworkInfo)
    (hhost : network_info.host_mac_address.length = 6)
    (hcomm : network_info.wlan_comm_id.length = 8)
    (hnet : network_info.network_id.length = 4) :
    GenerateDataCCMPKey md5 E GetNormalKey passphrase network_info =
      deriveCCMPKeySpec md5 E GetNormalKey passphrase network_info ∧
    (dataFrameCryptoCTRBytes network_info).length = 19 := by
  refine ⟨rfl, ?_⟩
  simp [dataFrameCryptoCTRBytes, hhost, hcomm, hnet]

/-- C3 witness: key derivation refinement and counter-input length at
concrete primitives and a concrete `NetworkInfo`. -/
theorem C3_ccmp_key_matches_spec_witness :
    GenerateDataCCMPKey (fun _ => List.replicate 16 0) zeroCipher (fun _ => testKey)
      [1, 2] testNetworkInfo =
      deriveCCMPKeySpec (fun _ => List.replicate 16 0) zeroCipher (fun _ => testKey)
        [1, 2] testNetworkInfo ∧
    (dataFrameCryptoCTRBytes testNetworkInfo).length = 19 :=
  C3_ccmp_key_matches_spec (fun _ => List.replicate 16 0) zeroCipher (fun _ => testKey)
    [1, 2] testNetworkInfo (by decide) (by decide) (by decide)

/-- C4: the AAD is exactly 22 bytes — a big-endian frame control 0x0841,
receiver MAC, transmitter = sender, destination = receiver, and a big-endian
zero sequence control. -/
theorem C4_aad_layout (sender receiver : List Nat)
    (hs : sender.length = 6) (hr : receiver.length = 6) :
    GenerateCCMPAAD sender receiver =
      [0x08, 0x41] ++ receiver ++ sender ++ receiver ++ [0x00, 0x00] ∧
    (GenerateCCMPAAD sender receiver).length = 22 := by
  constructor
  · unfold GenerateCCMPAAD serializeCCMPAAD
    dsimp only
    rw [show be16 DefaultFrameControl = [0x08, 0x41] from rfl,
      show be16 0 = [0x00, 0x00] from rfl]
  · unfold GenerateCCMPAAD serializeCCMPAAD
    dsimp only
    simp only [List.length_append, hs, hr, be16, List.length_cons, List.length_nil]

/-- C4 witness: the AAD layout at concrete MAC addresses. -/
theorem C4_aad_layout_witness :
    GenerateCCMPAAD macA macB =
      [0x08, 0x41] ++ macB ++ macA ++ macB ++ [0x00, 0x00] ∧
    (GenerateCCMPAAD macA macB).length = 22 :=
  C4_aad_layout macA macB (by decide) (by decide)

/-- C5: both nonce constructions are 13 bytes — priority 0, the 6-byte
sender MAC, four zero bytes and the big-endian sequence number — and the
encrypt- and decrypt-side constructions agree byte for byte. -/
theorem C5_nonce_layout (sender : List Nat) (N : Nat)
    (hs : sender.length = 6) (hN : N < 65536) :
    decryptNonce sender N = 0 :: (sender ++ [0, 0, 0, 0, N / 256, N % 256]) ∧
    (decryptNonce sender N).length = 13 ∧
    encryptNonce sender N = decryptNonce sender N := by
  have h1 : N >>> 8 = N / 256 := by
    have h := Nat.shiftRight_eq_div_pow N 8
    norm_num at h
    exact h
  have h2 : (N >>> 8) &&& 255 = N >>> 8 % 256 := by
    have h := Nat.and_pow_two_sub_one_eq_mod (N >>> 8) 8
    norm_num at h
    exact h
  have hhi : (N >>> 8) &&& 0xFF = N / 256 := by
    rw [h2, h1, Nat.mod_eq_of_lt (by omega)]
  have hlo : N &&& 0xFF = N % 256 := by
    have h := Nat.and_pow_two_sub_one_eq_mod N 8
    norm_num at h
    exact h
  refine ⟨?_, ?_, rfl⟩
  · unfold decryptNonce decryptPacketNumber
    rw [hhi, hlo]
  · unfold decryptNonce decryptPacketNumber
    simp only [List.length_cons, List.length_append, List.length_nil, hs]

/-- C5 witness: the nonce layout at a concrete sender MAC and sequence
number. -/
theorem C5_nonce_layout_witness :
    decryptNonce macA 0x1234 = 0 :: (macA ++ [0, 0, 0, 0, 0x12, 0x34]) ∧
    (decryptNonce macA 0x1234).length = 13 ∧
    encryptNonce macA 0x1234 = decryptNonce macA 0x1234 :=
  C5_nonce_layout macA 0x1234 (by decide) (by decide)

/-- C6: the secure-data header's fields satisfy protocol_size = L +
header_size and securedata_size = protocol_size - 4, the management flag is
0, and the serialization places every field at its fixed position. -/
theorem C6_secure_data_header_fields (L channel dest src seq : Nat)
    (hL : L + secureDataHeaderSize < 65536) (hc : channel < 256)
    (hd : dest < 65536) (hsrc : src < 65536) (hq : seq < 65536) :
    (mkSecureDataHeader L channel dest src seq).protocol_size =
      L + secureDataHeaderSize ∧
    (mkSecureDataHeader L channel dest src seq).securedata_size =
      (mkSecureDataHeader L channel dest src seq).protocol_size - 4 ∧
    (mkSecureDataHeader L channel dest src seq).is_management = 0 ∧
    GenerateSecureDataHeader L channel dest src seq =
      be16 (L + secureDataHeaderSize) ++ be16 (L + secureDataHeaderSize - 4) ++
        [0, channel] ++ be16 seq ++ be16 dest ++ be16 src := by
  have hL12 : L + 12 < 65536 := hL
  have e1 : (L % 65536 + 12) % 65536 = L + 12 := by omega
  have e2 : (L % 65536 + 12 - 4) % 65536 = L + 12 - 4 := by omega
  have e0 : (0 : Nat) % 256 = 0 := rfl
  have e3 : channel % 256 % 256 = channel := by omega
  have e4 : seq % 65536 = seq := Nat.mod_eq_of_lt hq
  have e5 : dest % 65536 = dest := Nat.mod_eq_of_lt hd
  have e6 : src % 65536 = src := Nat.mod_eq_of_lt hsrc
  refine ⟨?_, ?_, rfl, ?_⟩
  · unfold mkSecureDataHeader secureDataHeaderSize
    dsimp only
    exact e1
  · unfold mkSecureDataHeader secureDataHeaderSize
    dsimp only
    rw [e1, e2]
  · unfold GenerateSecureDataHeader serializeSecureDataHeader mkSecureDataHeader
      secureDataHeaderSize
    dsimp only
    rw [e1, e2, e0, e3, e4, e5, e6]

/-- C6 witness: the header fields and serialization at concrete
parameters. -/
theorem C6_secure_data_header_fields_witness :
    (mkSecureDataHeader 100 3 1 2 7).protocol_size = 100 + secureDataHeaderSize ∧
    (mkSecureDataHeader 100 3 1 2 7).securedata_size =
      (mkSecureDataHeader 100 3 1 2 7).protocol_size - 4 ∧
    (mkSecureDataHeader 100 3 1 2 7).is_management = 0 ∧
    GenerateSecureDataHeader 100 3 1 2 7 =
      be16 (100 + secureDataHeaderSize) ++ be16 (100 + secureDataHeaderSize - 4) ++
        [0, 3] ++ be16 7 ++ be16 1 ++ be16 2 :=
  C6_secure_data_header_fields 100 3 1 2 7 (by decide) (by decide) (by decide)
    (by decide) (by decide)

/-- C7: the claim asserts the length computation does not underflow, but at
the concrete 3-byte input the size_t subtraction wraps to 2^64 - 5 — far
beyond the CCM length limit — even though decryption still fails closed with
the empty result. -/
theorem C7_length_computation_underflows_on_short_input :
    wrapSub8 ([1, 2, 3] : List Nat).length = 18446744073709551611 ∧
    ¬ wrapSub8 ([1, 2, 3] : List Nat).length ≤ ccmMaxMessageLength ∧
    DecryptDataFrame zeroCipher testKey macA macB 0 [1, 2, 3] = [] := by
  refine ⟨by norm_num [wrapSub8], by norm_num [wrapSub8, ccmMaxMessageLength], ?_⟩
  exact decrypt_short_eq_empty zeroCipher testKey macA macB 0 [1, 2, 3] (by norm_num)

/-- C7 (amended): for every input shorter than 8 bytes, the size_t length
computation wraps past the CCM message-length limit, the CCM primitive
rejects it before any buffer is touched, and `DecryptDataFrame` fails closed
with the empty result. -/
theorem C7_short_input_fails_closed (E : List Nat → List Nat → List Nat)
    (key S R : List Nat) (N : Nat) (input : List Nat) (h : input.length < 8) :
    DecryptDataFrame E key S R N input = [] ∧
    ccmMaxMessageLength < wrapSub8 input.length :=
  ⟨decrypt_short_eq_empty E key S R N input h, wrapSub8_short input.length h⟩

/-- C7 witness: the fail-closed behaviour at a concrete 2-byte input. -/
theorem C7_short_input_fails_closed_witness :
    DecryptDataFrame zeroCipher testKey macA macB 9 [0xAB, 0xCD] = [] ∧
    ccmMaxMessageLength < wrapSub8 ([0xAB, 0xCD] : List Nat).length :=
  C7_short_input_fails_closed zeroCipher testKey macA macB 9 [0xAB, 0xCD] (by norm_num)

/-- C8: whenever the CCM primitive signals failure — on the encrypt path or
on the decrypt path — the corresponding frame function returns the empty
byte vector, the single failure signal of both paths. -/
theorem C8_library_failure_returns_empty (E : List Nat → List Nat → List Nat)
    (key S R : List Nat) (N : Nat) (payload input : List Nat)
    (henc : encryptCCMResult E key S R N payload = none)
    (hdec : decryptCCMResult E key S R N input = none) :
    EncryptDataFrame E key S R N payload = [] ∧
    DecryptDataFrame E key S R N input = [] := by
  constructor
  · unfold EncryptDataFrame
    rw [henc]
    rfl
  · unfold DecryptDataFrame
    rw [hdec]
    rfl

/-- C8 witness: a concrete oversized payload makes the encrypt-side CCM
primitive fail and a concrete 3-byte input makes the decrypt-side primitive
fail; both frame functions return the empty vector. -/
theorem C8_library_failure_returns_empty_witness :
    EncryptDataFrame zeroCipher testKey macA macB 0 bigPayload = [] ∧
    DecryptDataFrame zeroCipher testKey macA macB 0 [1, 2, 3] = [] :=
  C8_library_failure_returns_empty zeroCipher testKey macA macB 0 bigPayload [1, 2, 3]
    (by
      unfold encryptCCMResult ccmEncrypt
      rw [show bigPayload.length = 65536 from by rw [bigPayload, List.length_replicate],
        if_neg (by norm_num [ccmMaxMessageLength])])
    (by
      unfold decryptCCMResult
      rw [if_neg (by norm_num [wrapSub8, ccmMaxMessageLength])])

/-- C9: `GenerateDataPayload` is the concatenation of the 2-byte big-endian
link-encapsulation header for the secure-data protocol, the secure-data
header sized against the payload length, and the payload bytes unchanged. -/
theorem C9_data_payload_concatenation (data : List Nat)
    (channel dest_node src_node sequence_number : Nat) :
    GenerateDataPayload data channel dest_node src_node sequence_number =
      be16 EtherTypeSecureData ++
        GenerateSecureDataHeader data.length channel dest_node src_node sequence_number ++
        data ∧
    GenerateLLCHeader EtherTypeSecureData = be16 EtherTypeSecureData ∧
    (GenerateLLCHeader EtherTypeSecureData).length = 2 :=
  ⟨rfl, rfl, rfl⟩

/-- C10: encrypting the empty plaintext succeeds with the 8-byte tag alone
(a non-empty result), its decryption succeeds and releases the empty
payload — a value byte-identical to the empty failure signal, as the
decryption of an invalid (empty) input shows. -/
theorem C10_empty_plaintext_decrypt_matches_failure_signal
    (E : List Nat → List Nat → List Nat) (hE : ∀ k b, (E k b).length = 16)
    (key S R : List Nat) (N : Nat) :
    (EncryptDataFrame E key S R N []).length = 8 ∧
    EncryptDataFrame E key S R N [] ≠ [] ∧
    decryptCCMResult E key S R N (EncryptDataFrame E key S R N []) = some [] ∧
    DecryptDataFrame E key S R N (EncryptDataFrame E key S R N []) = [] ∧
    DecryptDataFrame E key S R N [] = [] := by
  have hcore : decryptCCMResult E key S R N (EncryptDataFrame E key S R N []) = some [] :=
    roundtrip_core E hE key S R N [] (by norm_num)
  have henc : EncryptDataFrame E key S R N [] =
      ccmTag E key (encryptNonce S N) (GenerateCCMPAAD S R) [] := by
    rw [encrypt_within_limit E key S R N [] (by norm_num)]
    rfl
  have hlen : (EncryptDataFrame E key S R N []).length = 8 := by
    rw [henc]
    exact ccmTag_length E hE key _ _ []
  refine ⟨hlen, ?_, hcore, ?_, ?_⟩
  · intro hcontra
    rw [hcontra] at hlen
    exact absurd hlen (by norm_num)
  · unfold DecryptDataFrame
    rw [hcore]
    rfl
  · exact decrypt_short_eq_empty E key S R N [] (by norm_num)

/-- C10 witness: the empty-plaintext behaviour at a concrete cipher, key,
address pair and sequence number. -/
theorem C10_empty_plaintext_decrypt_matches_failure_signal_witness :
    (EncryptDataFrame zeroCipher testKey macA macB 7 []).length = 8 ∧
    EncryptDataFrame zeroCipher testKey macA macB 7 [] ≠ [] ∧
    decryptCCMResult zeroCipher testKey macA macB 7
      (EncryptDataFrame zeroCipher testKey macA macB 7 []) = some [] ∧
    DecryptDataFrame zeroCipher testKey macA macB 7
      (EncryptDataFrame zeroCipher testKey macA macB 7 []) = [] ∧
    DecryptDataFrame zeroCipher testKey macA macB 7 [] = [] :=
  C10_empty_plaintext_decrypt_matches_failure_signal zeroCipher
    (fun _ _ => by simp [zeroCipher]) testKey macA macB 7

end NWM
